import Mathlib

/-!
Verification development for the terminal-portfolio repository (sbk2k1/sbk-chat).

The definitions below are shallow embeddings of the TypeScript sources:
* `FSNode`, `FSManager`, `resolvePath`, `navigate`, … — `FileSystemManager.ts`
* `CommandParser.parse` and its helpers — `CommandParser.ts`
* `cdCommand`, `catCommand`, `chatapiCommand`, `chatCommand` — the
  `executeCommand` dispatcher in `useTerminal.ts`
* `KnowledgeManager` context rendering — `KnowledgeManager.ts`
* chat-session state machines — `GeminiChatManager.ts`, `LocalLLMChatManager.ts`
* `terminalReducer` — `useTerminal.ts`

JS-specific operations are modelled explicitly: `Array.prototype.slice(-n)` as
`jsSliceLast`, `String.prototype.substring(0, e)` (clamping a negative end to 0)
as `jsSubstring`, `Array.prototype.sort` as a stable insertion sort, and
`localeCompare` on category names as code-point order.
-/

namespace SbkChat



/-! ### JS string primitives

Character-level models of the JavaScript string operations the sources use.
They are defined over `String.data` so that they reduce inside the kernel. -/

/-- JS `String.prototype.trim` (whitespace stripped from both ends). -/

def jsTrim (s : String) : String :=
  ⟨((s.data.dropWhile Char.isWhitespace).reverse.dropWhile Char.isWhitespace).reverse⟩

/-- JS `String.prototype.startsWith` for a one-character prefix. -/

def jsStartsWith (s : String) (pre : String) : Bool :=
  pre.data.isPrefixOf s.data

/-- JS `String.prototype.substring(n)`: drop the first `n` characters. -/

def jsDrop (s : String) (n : Nat) : String :=
  ⟨s.data.drop n⟩

/-- JS `String.prototype.substring(0, e)`: take the first `e` characters
(`substring` clamps a negative end to 0, which `Nat` subtraction mirrors). -/

def jsSubstring (s : String) (e : Nat) : String :=
  ⟨s.data.take e⟩

/-- JS `String.prototype.split(sep)` for a one-character separator. -/

def jsSplitChar (sep : Char) (s : String) : List String :=
  let r := s.data.foldl
    (fun (acc : List String × List Char) c =>
      if c = sep then (acc.1 ++ [⟨acc.2.reverse⟩], []) else (acc.1, c :: acc.2))
    ([], [])
  r.1 ++ [⟨r.2.reverse⟩]

/-- JS `String.prototype.includes` for a one-character needle. -/

def jsIncludesChar (s : String) (c : Char) : Bool :=
  s.data.contains c

/-- JS `String.prototype.includes` for a string needle. -/

def jsIncludes (s : String) (pat : String) : Bool :=
  (List.range (s.data.length + 1)).any (fun i => pat.data.isPrefixOf (s.data.drop i))

/-- JS `String.prototype.toUpperCase`, ASCII model. -/

def jsToUpper (s : String) : String :=
  ⟨s.data.map Char.toUpper⟩

/-- JS `Array.prototype.slice(-n)`: the at-most-`n`-element suffix. -/

def jsSliceLast {α : Type} (n : Nat) (l : List α) : List α :=
  l.drop (l.length - n)

/-- Embedding of `'file' | 'directory' | 'script'` tag of an `FSNode`. -/

inductive FSType where
  | file
  | directory
  | script
deriving DecidableEq, Repr

/-- Action carried by script nodes. -/

structure FSAction where
  type : String
  target : String
deriving DecidableEq, Repr

/-- A node of the virtual filesystem (`FSNode` in `FileSystemManager.ts`).
Children are an association list in object-key order. -/

inductive FSNode where
  | mk (ty : FSType) (content : Option String)
       (children : List (String × FSNode)) (action : Option FSAction)
deriving Repr

/-- The node's type tag. -/

def FSNode.ty : FSNode → FSType
  | .mk t _ _ _ => t

/-- The node's optional inline content. -/

def FSNode.content : FSNode → Option String
  | .mk _ c _ _ => c

/-- The node's children (empty list models a missing `children` object). -/

def FSNode.children : FSNode → List (String × FSNode)
  | .mk _ _ cs _ => cs

/-- The node's optional script action. -/

def FSNode.action : FSNode → Option FSAction
  | .mk _ _ _ a => a

/-- JS object lookup `children[segment]`: first binding for the key. -/

def lookupChild : List (String × FSNode) → String → Option FSNode
  | [], _ => none
  | (k, v) :: rest, key => if k = key then some v else lookupChild rest key

/-- Embedding of `FileSystemManager.getNodeAtPath`: walk `path` from `root` through
`children`, returning `null` (`none`) when a segment is missing. -/

def getNodeAtPath (root : FSNode) : List String → Option FSNode
  | [] => some root
  | seg :: rest =>
    match lookupChild root.children seg with
    | none => none
    | some child => getNodeAtPath child rest

/-- Mutable state of a `FileSystemManager` instance (the tree itself is
immutable after construction). -/

structure FSManager where
  root : FSNode
  currentPath : List String
  previousPath : Option (List String)
deriving Repr

/-- One step of the segment loop in `FileSystemManager.resolvePath`:
`.` is a no-op, `..` pops the last segment if any, anything else is pushed. -/

def resolveStep (workingPath : List String) (segment : String) : List String :=
  if segment = "." then workingPath
  else if segment = ".." then workingPath.dropLast
  else workingPath ++ [segment]

/-- Embedding of `FileSystemManager.resolvePath`: resolve a path expression (absolute or
relative, honouring `~`, `-`, `.`, `..`) to a segment list, or `none`. -/

def resolvePath (m : FSManager) (path : String) : Option (List String) :=
  if jsTrim path = "" then none
  else if path = "~" then some ["home", "saptarshi"]
  else if path = "-" then m.previousPath
  else
    let (workingPath, rest) :=
      if jsStartsWith path "/" then (([] : List String), jsDrop path 1)
      else (m.currentPath, path)
    let segments := (jsSplitChar '/' rest).filter (fun s => s.data.length > 0)
    some (segments.foldl resolveStep workingPath)

/-- Embedding of `FileSystemManager.navigate`: succeeds only when the resolved target
exists and is a directory; on success saves the old current path into
`previousPath`. Returns the success flag and the updated manager. -/

def navigate (m : FSManager) (path : String) : Bool × FSManager :=
  match resolvePath m path with
  | none => (false, m)
  | some resolved =>
    match getNodeAtPath m.root resolved with
    | none => (false, m)
    | some node =>
      if node.ty = .directory then
        (true, { m with previousPath := some m.currentPath, currentPath := resolved })
      else (false, m)

/-- Embedding of `FileSystemManager.getNode` (public lookup by path expression). -/

def getNode (m : FSManager) (path : String) : Option FSNode :=
  match resolvePath m path with
  | none => none
  | some resolved => getNodeAtPath m.root resolved

/-- Embedding of `FileSystemManager.readFile`: `none` unless the target exists and is not a
directory; missing content reads as `""`. -/

def readFile (m : FSManager) (path : String) : Option String :=
  match getNode m path with
  | none => none
  | some node =>
    if node.ty = .directory then none
    else some (node.content.getD "")

/-- Embedding of `FileSystemManager.getCurrentPath`: `'/' + segments.join('/')`. -/

def getCurrentPath (m : FSManager) : String :=
  "/" ++ String.intercalate "/" m.currentPath

/-- Embedding of `FileSystemManager.navigateHome`. -/

def navigateHome (m : FSManager) : FSManager :=
  { m with previousPath := some m.currentPath, currentPath := ["home", "saptarshi"] }

/-- Bool test used in hypotheses below: the node at `p` is a directory. -/

def isDirectoryAt (root : FSNode) (p : List String) : Bool :=
  match getNodeAtPath root p with
  | some node => node.ty = .directory
  | none => false

/-- Apply `resolvePath m ".."` to the cursor (the result is always defined,
so `getD` never takes its default). -/

def applyDotDot (m : FSManager) : FSManager :=
  { m with currentPath := (resolvePath m "..").getD m.currentPath }

/-- A small concrete tree used by witnesses: `/home/saptarshi` and `/docs`
with files `a.txt = "X"`, `b.txt = "Y"`. -/

def exRoot : FSNode :=
  .mk .directory none
    [("home", .mk .directory none
        [("saptarshi", .mk .directory none
            [("a.txt", .mk .file (some "X") [] none),
             ("b.txt", .mk .file (some "Y") [] none)] none)] none),
     ("docs", .mk .directory none
        [("readme.txt", .mk .file (some "hello") [] none)] none)] none

/-- Manager freshly constructed on the example tree (constructor state:
`currentPath = ['home','saptarshi']`, `previousPath = null`). -/

def exManager : FSManager :=
  { root := exRoot, currentPath := ["home", "saptarshi"], previousPath := none }

/-! ### Lemmas about the path resolver -/

/-! ### Lemmas about navigation -/

/-! ### The `cd` case of `executeCommand` (useTerminal.ts) -/

/-- The error markup used by `executeCommand`:
`<span style="color: ${terminalConfig.visuals.colors.error}">…</span>`,
parameterised by the configured error colour `ec`. -/

def errSpan (ec : String) (s : String) : String :=
  "<span style=\"color: " ++ ec ++ "\">" ++ s ++ "</span>"

/-- The `case 'cd'` handler: no argument goes home; `-` is special-cased on
`previousPath` (printing the destination on success, `OLDPWD not set` when
there is no previous path, and nothing when navigation fails); otherwise a
failed `navigate` is classified via `getNode` into `No such file or directory`
versus `Not a directory`, naming the offending path. Returns the manager after
the command and the emitted output lines. -/

def cdCommand (ec : String) (m : FSManager) (args : List String) :
    FSManager × List String :=
  match args with
  | [] => (navigateHome m, [])
  | cdPath :: _ =>
    if cdPath = "-" then
      match m.previousPath with
      | none => (m, [errSpan ec "bash: cd: OLDPWD not set"])
      | some _ =>
        if (navigate m cdPath).1 then ((navigate m cdPath).2, [getCurrentPath (navigate m cdPath).2])
        else ((navigate m cdPath).2, [])
    else
      if (navigate m cdPath).1 then ((navigate m cdPath).2, [])
      else
        match getNode m cdPath with
        | none => ((navigate m cdPath).2, [errSpan ec ("bash: cd: " ++ cdPath ++ ": No such file or directory")])
        | some _ => ((navigate m cdPath).2, [errSpan ec ("bash: cd: " ++ cdPath ++ ": Not a directory")])

/-! ### CommandParser.ts -/

/-- Flag values: `true` for boolean flags, a string for `--name=value`. -/

inductive FlagVal where
  | b (v : Bool)
  | s (v : String)
deriving DecidableEq, Repr

/-- JS object assignment `flags[name] = v`: overwrite in place or append. -/

def setFlag (flags : List (String × FlagVal)) (name : String) (v : FlagVal) :
    List (String × FlagVal) :=
  if flags.any (fun q => q.1 = name) then
    flags.map (fun q => if q.1 = name then (name, v) else q)
  else flags ++ [(name, v)]

/-- The character loop of `CommandParser.tokenize`, structurally recursive on
the remaining input; state: accumulated tokens, current token, open quote
character, pending backslash escape. -/

def tokenizeAux : List Char → List String → String → Option Char → Bool → List String
  | [], tokens, current, _, _ =>
      if current ≠ "" then tokens ++ [current] else tokens
  | c :: rest, tokens, current, inQuote, escaped =>
      if escaped then tokenizeAux rest tokens (current.push c) inQuote false
      else if c = '\\' then tokenizeAux rest tokens current inQuote true
      else if c = '"' ∨ c = '\'' then
        if inQuote = some c then tokenizeAux rest tokens current none false
        else if inQuote = none then tokenizeAux rest tokens current (some c) false
        else tokenizeAux rest tokens (current.push c) inQuote false
      else if inQuote = none ∧ (c = ' ' ∨ c = '\t') then
        if current ≠ "" then tokenizeAux rest (tokens ++ [current]) "" inQuote false
        else tokenizeAux rest tokens current inQuote false
      else tokenizeAux rest tokens (current.push c) inQuote false

/-- Embedding of `CommandParser.tokenize`: split on unquoted whitespace, honouring single
and double quotes and backslash escapes. -/

def tokenize (input : String) : List String :=
  tokenizeAux input.data [] "" none false

/-- Embedding of `CommandParser.isNegativeNumber`: the regex `^-\d+(\.\d+)?$`. -/

def isNegativeNumber (token : String) : Bool :=
  match token.data with
  | '-' :: rest =>
    let ds := rest.takeWhile Char.isDigit
    let tail := rest.drop ds.length
    decide (0 < ds.length) &&
      (match tail with
       | [] => true
       | '.' :: frac => decide (0 < frac.length) && frac.all Char.isDigit
       | _ => false)
  | _ => false

/-- Embedding of `CommandParser.parseLongFlag`: `--name` or `--name=value`
(JS `split('=', 2)` keeps the text between the first two `=`). -/

def parseLongFlag (token : String) (flags : List (String × FlagVal)) :
    List (String × FlagVal) :=
  let flagName := jsDrop token 2
  if jsIncludesChar flagName '=' then
    let parts := jsSplitChar '=' flagName
    setFlag flags (parts.headD "") (FlagVal.s (parts.getD 1 ""))
  else setFlag flags flagName (FlagVal.b true)

/-- Embedding of `CommandParser.parseShortFlags`: each character after the dash becomes a
boolean flag. -/

def parseShortFlags (token : String) (flags : List (String × FlagVal)) :
    List (String × FlagVal) :=
  (jsDrop token 1).data.foldl (fun fs c => setFlag fs ⟨[c]⟩ (FlagVal.b true)) flags

/-- Result of `CommandParser.parse`. -/

structure ParsedCommand where
  command : String
  args : List String
  flags : List (String × FlagVal)
  rawInput : String
deriving DecidableEq, Repr

/-- Embedding of `CommandParser.parse`: first token is the command; `--…` tokens are long
flags, `-…` tokens longer than one character that are not negative-number
literals are short-flag clusters, everything else is a positional argument. -/

def parse (input : String) : ParsedCommand :=
  let trimmed := jsTrim input
  if trimmed = "" then ⟨"", [], [], input⟩
  else
    match tokenize trimmed with
    | [] => ⟨"", [], [], input⟩
    | command :: rest =>
      let r := rest.foldl
        (fun (acc : List String × List (String × FlagVal)) token =>
          if jsStartsWith token "--" then (acc.1, parseLongFlag token acc.2)
          else if jsStartsWith token "-" && decide (1 < token.data.length)
              && !(isNegativeNumber token) then
            (acc.1, parseShortFlags token acc.2)
          else (acc.1 ++ [token], acc.2))
        ([], [])
      ⟨command, r.1, r.2, input⟩

/-! ### The `cat` case of `executeCommand` (useTerminal.ts) -/

/-- The per-argument body of the `cat` loop; the accumulator carries the
output lines so far and the `hasError` flag. A blank separator line is pushed
only when output is nonempty and no error has occurred so far. -/

def catStep (ec : String) (m : FSManager) (acc : List String × Bool) (catPath : String) :
    List String × Bool :=
  match getNode m catPath with
  | none => (acc.1 ++ [errSpan ec ("cat: " ++ catPath ++ ": No such file or directory")], true)
  | some catNode =>
    if catNode.ty = .directory then
      (acc.1 ++ [errSpan ec ("cat: " ++ catPath ++ ": Is a directory")], true)
    else
      match readFile m catPath with
      | some content =>
        (acc.1 ++ (if 0 < acc.1.length ∧ acc.2 = false then [""] else [])
           ++ jsSplitChar '\n' content, acc.2)
      | none => (acc.1 ++ [errSpan ec ("cat: " ++ catPath ++ ": Cannot read file")], true)

/-- The `case 'cat'` handler: error for no operand, otherwise the loop above
over all arguments. -/

def catCommand (ec : String) (m : FSManager) (args : List String) : List String :=
  if args.isEmpty then
    [errSpan ec "cat: missing file operand",
     "Try \x27cat --help\x27 for more information."]
  else (args.foldl (catStep ec m) ([], false)).1

/-- The lines a readable path contributes: its content split on newlines. -/

def catContents (m : FSManager) (p : String) : List String :=
  jsSplitChar '\n' ((readFile m p).getD "")

/-- The `cat` loop of `executeCommand` re-expressed one argument at a time:
`nonempty` tracks `outputs.length > 0` and `hasError` the sticky error flag of
the accumulator, so each argument contributes its distinct error line
(missing path vs directory) or its content preceded by the blank separator
exactly when output is nonempty and no error has occurred yet, and the
remaining arguments are always still processed. The theorem
`cat_blank_separator_amended` proves `catCommand` equal to this rendering. -/
def catRender (ec : String) (m : FSManager) :
    List String → Bool → Bool → List String
  | [], _, _ => []
  | catPath :: rest, nonempty, hasError =>
    match getNode m catPath with
    | none =>
        errSpan ec ("cat: " ++ catPath ++ ": No such file or directory")
          :: catRender ec m rest true true
    | some catNode =>
      if catNode.ty = .directory then
        errSpan ec ("cat: " ++ catPath ++ ": Is a directory")
          :: catRender ec m rest true true
      else
        match readFile m catPath with
        | some content =>
            (if nonempty = true ∧ hasError = false then [""] else [])
              ++ jsSplitChar '\n' content ++ catRender ec m rest true hasError
        | none =>
            errSpan ec ("cat: " ++ catPath ++ ": Cannot read file")
              :: catRender ec m rest true true

/-! ### KnowledgeManager.ts -/

/-- Knowledge-manager configuration (`maxContextSize`, `priorityThreshold`). -/

structure KnowledgeConfig where
  maxContextSize : Nat
  priorityThreshold : Int
deriving DecidableEq, Repr

/-- A knowledge entry; `tags`/`priority` model the optional metadata. -/

structure KnowledgeEntry where
  id : String
  category : String
  content : String
  tags : List String
  priority : Option Int
deriving DecidableEq, Repr

/-- Embedding of `entry.metadata?.priority ?? 1`. -/

def entryPriority (e : KnowledgeEntry) : Int := e.priority.getD 1

/-- The sort comparator of `formatForPrompt` as a "comes no later than"
relation: higher priority first, ties broken by category name
(`localeCompare` modelled as code-point order). -/

def entryLe (a b : KnowledgeEntry) : Bool :=
  if entryPriority a ≠ entryPriority b then decide (entryPriority b < entryPriority a)
  else decide (a.category ≤ b.category)

/-- Insert while keeping earlier (left) elements first among ties. -/

def insertSorted {α : Type} (le : α → α → Bool) (x : α) : List α → List α
  | [] => [x]
  | y :: ys => if le x y then x :: y :: ys else y :: insertSorted le x ys

/-- JS `Array.prototype.sort` with comparator expressed as `le` (the
ECMAScript sort is stable, which this insertion sort preserves). -/

def jsStableSort {α : Type} (le : α → α → Bool) : List α → List α
  | [] => []
  | x :: xs => insertSorted le x (jsStableSort le xs)

/-- The category keys of the `reduce` grouping, in first-occurrence order
(JS object key insertion order). -/

def groupCategories (sorted : List KnowledgeEntry) : List String :=
  sorted.foldl
    (fun cats e => if cats.contains e.category then cats else cats ++ [e.category]) []

/-- Embedding of `KnowledgeManager.formatForPrompt`: sort by descending priority then
category, group by category with an upper-cased `## CATEGORY` header, append
each entry's content followed by a blank line, and trim the result. -/

def formatForPrompt (entriesToFormat : List KnowledgeEntry) : String :=
  if entriesToFormat.isEmpty then "No knowledge available."
  else
    let sorted := jsStableSort entryLe entriesToFormat
    jsTrim ((groupCategories sorted).foldl
      (fun ctx category =>
        (sorted.filter (fun e => e.category = category)).foldl
          (fun c e => c ++ e.content ++ "\n\n")
          (ctx ++ "\n## " ++ jsToUpper category ++ "\n\n"))
      "")

/-- The hard-truncation suffix appended by `getContext`. -/

def truncationMarker : String := "\n\n[Context truncated due to size limits]"

/-- Embedding of `const entries` of `getContext` with no filters argument: the entries at
or above the configured priority threshold. -/

def contextEntries (cfg : KnowledgeConfig) (kb : List KnowledgeEntry) : List KnowledgeEntry :=
  kb.filter (fun e => cfg.priorityThreshold ≤ entryPriority e)

/-- Embedding of `const highPriorityEntries = entries.filter(priority >= 1)`. -/

def highPriorityEntries (cfg : KnowledgeConfig) (kb : List KnowledgeEntry) : List KnowledgeEntry :=
  (contextEntries cfg kb).filter (fun e => (1 : Int) ≤ entryPriority e)

/-- Embedding of `KnowledgeManager.getContext()` (no explicit filters): select entries at or
above the configured priority threshold, render; if the result exceeds
`maxContextSize`, retry with only priority ≥ 1 entries; if still oversized,
hard-truncate to `maxContextSize - 100` characters plus the marker. -/

def getContext (cfg : KnowledgeConfig) (kb : List KnowledgeEntry) : String :=
  if cfg.maxContextSize < (formatForPrompt (contextEntries cfg kb)).length then
    if cfg.maxContextSize < (formatForPrompt (highPriorityEntries cfg kb)).length then
      jsSubstring (formatForPrompt (highPriorityEntries cfg kb)) (cfg.maxContextSize - 100)
        ++ truncationMarker
    else formatForPrompt (highPriorityEntries cfg kb)
  else formatForPrompt (contextEntries cfg kb)

def cexKnowledgeConfig : KnowledgeConfig := ⟨10, 1⟩

def cexKnowledgeBase : List KnowledgeEntry :=
  [⟨"e1", "cat", "0123456789ABCDEF", [], none⟩]

/-! ### GeminiChatManager.ts and LocalLLMChatManager.ts -/

/-- Embedding of `'user' | 'model'` roles of the Gemini manager's `ChatMessage`. -/

inductive GeminiRole where
  | user
  | model
deriving DecidableEq, Repr

/-- A Gemini chat message. -/

structure GeminiMessage where
  role : GeminiRole
  parts : String
deriving DecidableEq, Repr

/-- State of a `GeminiChatManager` instance; `modelInitialized` models
`this.model !== null`. Wall-clock/network behaviour is abstracted into the
explicit start/finish transitions below. -/

structure GeminiState where
  apiKey : String
  modelInitialized : Bool
  systemPrompt : String
  chatHistory : List GeminiMessage
  isStreaming : Bool
deriving DecidableEq, Repr

/-- Embedding of `GeminiChatManager.isConfigured`: `!!apiKey && apiKey.length > 0`. -/

def geminiIsConfigured (st : GeminiState) : Bool := st.apiKey ≠ ""

/-- The role label used when rendering history into the prompt. -/

def geminiRoleName : GeminiRole → String
  | .user => "User"
  | .model => "Assistant"

/-- Embedding of `GeminiChatManager.buildPrompt`: the `Previous conversation` block built
from the last 10 history messages (when any), then `User: <message>`. -/

def buildPrompt (chatHistory : List GeminiMessage) (userMessage : String) : String :=
  (if 0 < (jsSliceLast 10 chatHistory).length then
    ((jsSliceLast 10 chatHistory).foldl
      (fun p msg => p ++ geminiRoleName msg.role ++ ": " ++ msg.parts ++ "\n")
      "Previous conversation:\n") ++ "\n"
   else "") ++ "User: " ++ userMessage

/-- Synchronous outcome of a `sendMessage` call: either `onError` fired with a
message and nothing else happened, or a streaming request with the given
payload was issued. -/

inductive SendOutcome (α : Type) where
  | err (msg : String)
  | started (payload : α)
deriving DecidableEq, Repr

/-- The concurrency-rejection message shared verbatim by both managers. -/

def busyMessage : String :=
  "Already streaming a response. Please wait for the current response to complete."

/-- Embedding of `GeminiChatManager.sendMessage`, synchronous prefix: reject when the model
is uninitialized or a response is already streaming (no history mutation, no
request); otherwise build the prompt from the pre-send history, append the
user message, and mark the manager as streaming. -/

def geminiSendStart (st : GeminiState) (message : String) :
    SendOutcome String × GeminiState :=
  if st.modelInitialized = false then
    (.err "Gemini API not initialized. Please check your API key configuration.", st)
  else if st.isStreaming then (.err busyMessage, st)
  else
    (.started (buildPrompt st.chatHistory message),
     { st with isStreaming := true,
               chatHistory := st.chatHistory ++ [⟨.user, message⟩] })

/-- Embedding of `GeminiChatManager.sendMessage`, completion path: append the accumulated
model response and clear the streaming flag (then `onComplete` fires). -/

def geminiSendFinish (st : GeminiState) (fullResponse : String) : GeminiState :=
  { st with chatHistory := st.chatHistory ++ [⟨.model, fullResponse⟩],
            isStreaming := false }

/-- Embedding of `GeminiChatManager.clearHistory`. -/

def geminiClearHistory (st : GeminiState) : GeminiState := { st with chatHistory := [] }

/-- Embedding of `GeminiChatManager.setSystemPrompt`. -/

def geminiSetSystemPrompt (st : GeminiState) (prompt : String) : GeminiState :=
  { st with systemPrompt := prompt }

/-- Embedding of `'user' | 'assistant' | 'system'` roles of the local manager. -/

inductive LocalRole where
  | user
  | assistant
  | system
deriving DecidableEq, Repr

/-- A local-LLM chat message. -/

structure LocalMessage where
  role : LocalRole
  content : String
deriving DecidableEq, Repr

/-- State of a `LocalLLMChatManager` instance. -/

structure LocalLLMState where
  endpoint : String
  systemPrompt : String
  chatHistory : List LocalMessage
  isStreaming : Bool
deriving DecidableEq, Repr

/-- Embedding of `LocalLLMChatManager.isConfigured`: `!!endpoint && endpoint.length > 0`. -/

def localIsConfigured (st : LocalLLMState) : Bool := st.endpoint ≠ ""

/-- Embedding of `LocalLLMChatManager.buildMessages`: optional system prompt, the last 10
history messages, then the new user message. -/

def buildMessages (st : LocalLLMState) (userMessage : String) : List LocalMessage :=
  (if st.systemPrompt ≠ "" then [⟨.system, st.systemPrompt⟩] else [])
    ++ jsSliceLast 10 st.chatHistory ++ [⟨.user, userMessage⟩]

/-- Embedding of `LocalLLMChatManager.sendMessage`, synchronous prefix: reject when the
endpoint is unconfigured or a response is already streaming (no history
mutation, no request); otherwise build the request messages from the pre-send
history, append the user message, and mark the manager as streaming. -/

def localSendStart (st : LocalLLMState) (message : String) :
    SendOutcome (List LocalMessage) × LocalLLMState :=
  if localIsConfigured st = false then
    (.err "Local LLM endpoint not configured. Please set VITE_LOCAL_LLM_ENDPOINT in your .env file.",
     st)
  else if st.isStreaming then (.err busyMessage, st)
  else
    (.started (buildMessages st message),
     { st with isStreaming := true,
               chatHistory := st.chatHistory ++ [⟨.user, message⟩] })

/-- Embedding of `LocalLLMChatManager` stream completion (`processStream` tail +
`sendMessage`): the accumulated assistant text is appended only when
nonempty, and the streaming flag is cleared. -/

def localSendFinish (st : LocalLLMState) (fullResponse : String) : LocalLLMState :=
  { st with
      chatHistory := st.chatHistory
        ++ (if fullResponse ≠ "" then [⟨.assistant, fullResponse⟩] else []),
      isStreaming := false }

/-- Embedding of `LocalLLMChatManager.clearHistory`. -/

def localClearHistory (st : LocalLLMState) : LocalLLMState := { st with chatHistory := [] }

/-- Embedding of `LocalLLMChatManager.setSystemPrompt`. -/

def localSetSystemPrompt (st : LocalLLMState) (prompt : String) : LocalLLMState :=
  { st with systemPrompt := prompt }

/-! ### Chat-mode entry: the `chatapi` and `chat` cases of `executeCommand` -/

/-- Embedding of `'gemini' | 'local'` chat modes (`null` is `Option.none`). -/

inductive ChatMode where
  | gemini
  | local
deriving DecidableEq, Repr

/-- The `GeminiChatManager` construction in `useTerminal`: the constructor's
`initialize` throws when the API key is falsy (empty), which the surrounding
`useMemo` catches, leaving a `null` manager; a nonempty key yields a manager
with the model initialized (the SDK client constructor does not validate the
key). -/

def mkGeminiManager (apiKey : String) : Option GeminiState :=
  if apiKey = "" then none
  else some ⟨apiKey, true, "", [], false⟩

/-- The `LocalLLMChatManager` construction in `useTerminal`: the constructor
never throws, so the manager is always present. -/

def mkLocalManager (endpoint : String) : Option LocalLLMState :=
  some ⟨endpoint, "", [], false⟩

/-- Output of `case 'chatapi'` when the manager is `null`. -/

def geminiNotInitializedLines : List String :=
  ["<span style=\"color: var(--terminal-red)\">Error: Gemini chat manager not initialized.</span>",
   "Please check your configuration."]

/-- Output of `case 'chatapi'` when `isConfigured()` is false. -/

def geminiNotConfiguredLines : List String :=
  ["<span style=\"color: var(--terminal-red)\">Error: Gemini API key not configured.</span>",
   "",
   "To use Gemini chat, please:",
   "1. Create a .env file in the project root",
   "2. Add: VITE_GEMINI_API_KEY=your_api_key_here",
   "3. Get your API key from: https://makersuite.google.com/app/apikey",
   "4. Restart the development server",
   ""]

/-- Warning emitted when the knowledge base is not loaded. -/

def knowledgeWarningLines : List String :=
  ["<span style=\"color: var(--terminal-yellow)\">Warning: Knowledge base not loaded. Chat may have limited context.</span>",
   ""]

/-- Banner emitted on entering Gemini chat mode. -/

def enterGeminiLines : List String :=
  ["",
   "<span style=\"color: var(--terminal-bright-green)\">Entering Gemini chat mode...</span>",
   "Ask me anything about Saptarshi!",
   "",
   "Type <span style=\"color: var(--terminal-bright-yellow)\">exit</span> or press <span style=\"color: var(--terminal-bright-yellow)\">Ctrl+C</span> to return to shell.",
   ""]

/-- Output of `case 'chat'` when the manager is `null`. -/

def localNotInitializedLines : List String :=
  ["<span style=\"color: var(--terminal-red)\">Error: Local LLM chat manager not initialized.</span>",
   "Please check your configuration."]

/-- Output of `case 'chat'` when `isConfigured()` is false. -/

def localNotConfiguredLines : List String :=
  ["<span style=\"color: var(--terminal-red)\">Error: Local LLM endpoint not configured.</span>",
   "",
   "To use local LLM chat, please:",
   "1. Install Ollama from: https://ollama.ai",
   "2. Start Ollama: ollama serve",
   "3. Pull a model: ollama pull llama2",
   "4. Create a .env file in the project root",
   "5. Add: VITE_LOCAL_LLM_ENDPOINT=http://localhost:11434",
   "6. Restart the development server",
   ""]

/-- Banner emitted on entering local LLM chat mode. -/

def enterLocalLines : List String :=
  ["",
   "<span style=\"color: var(--terminal-bright-green)\">Entering local LLM chat mode...</span>",
   "Ask me anything about Saptarshi!",
   "",
   "Type <span style=\"color: var(--terminal-bright-yellow)\">exit</span> or press <span style=\"color: var(--terminal-bright-yellow)\">Ctrl+C</span> to return to shell.",
   ""]

/-- The `case 'chatapi'` handler (reached with `chatMode = null`): reports and
stays in shell mode when the manager is missing or unconfigured; otherwise
warns if the knowledge base is unloaded, installs the system prompt, and
enters Gemini chat mode. Returns the resulting chat mode, the emitted lines,
and the manager. -/

def chatapiCommand (gm : Option GeminiState) (knowledgeLoaded : Bool) (sys : String) :
    Option ChatMode × List String × Option GeminiState :=
  match gm with
  | none => (none, geminiNotInitializedLines, none)
  | some g =>
    if geminiIsConfigured g = false then (none, geminiNotConfiguredLines, some g)
    else
      (some .gemini,
       (if knowledgeLoaded = false then knowledgeWarningLines else []) ++ enterGeminiLines,
       some (geminiSetSystemPrompt g sys))

/-- The `case 'chat'` handler, analogous to `chatapiCommand`. -/

def chatCommand (lm : Option LocalLLMState) (knowledgeLoaded : Bool) (sys : String) :
    Option ChatMode × List String × Option LocalLLMState :=
  match lm with
  | none => (none, localNotInitializedLines, none)
  | some lmgr =>
    if localIsConfigured lmgr = false then (none, localNotConfiguredLines, some lmgr)
    else
      (some .local,
       (if knowledgeLoaded = false then knowledgeWarningLines else []) ++ enterLocalLines,
       some (localSetSystemPrompt lmgr sys))

/-! ### C9: request history cap versus stored history -/

/-- Twelve-message Gemini state used by the C9 witness. -/

def geminiWitnessState : GeminiState :=
  ⟨"key", true, "",
   [⟨.user, "m1"⟩, ⟨.model, "m2"⟩, ⟨.user, "m3"⟩, ⟨.model, "m4"⟩, ⟨.user, "m5"⟩,
    ⟨.model, "m6"⟩, ⟨.user, "m7"⟩, ⟨.model, "m8"⟩, ⟨.user, "m9"⟩, ⟨.model, "m10"⟩,
    ⟨.user, "m11"⟩, ⟨.model, "m12"⟩],
   false⟩

/-! ### The terminal reducer (useTerminal.ts) -/

/-- A rendered history entry (`CommandHistory`); the wall-clock timestamp is
not modelled. -/

structure TerminalHistEntry where
  command : String
  output : List String
  prompt : Option String
deriving DecidableEq, Repr

/-- Embedding of `TerminalState` of the reducer. -/

structure TerminalState where
  history : List TerminalHistEntry
  commandHistory : List String
  historyIndex : Int
  isBooting : Bool
  chatMode : Option ChatMode
  isStreaming : Bool
deriving DecidableEq, Repr

/-- Embedding of `TerminalAction`. -/

inductive TerminalAction where
  | addHistory (payload : TerminalHistEntry)
  | addCommandHistory (payload : String)
  | setHistoryIndex (payload : Int)
  | setBooting (payload : Bool)
  | setChatMode (payload : Option ChatMode)
  | setStreaming (payload : Bool)
  | updateStreamingHistory (index : Int) (output : String)
  | clearHistory
deriving DecidableEq, Repr

/-- Embedding of `{ ...existing, output: [...] }` of `UPDATE_STREAMING_HISTORY`. -/

def entryWithOutput (e : TerminalHistEntry) (o : List String) : TerminalHistEntry :=
  { e with output := o }

/-- Embedding of `terminalReducer`: `ADD_COMMAND_HISTORY` appends and keeps the last 50
entries (`[...h, cmd].slice(-50)`) and resets the recall index;
`CLEAR_HISTORY` empties only the rendered output history. -/

def terminalReducer (s : TerminalState) (a : TerminalAction) : TerminalState :=
  match a with
  | .addHistory payload => { s with history := s.history ++ [payload] }
  | .addCommandHistory payload =>
      { s with commandHistory := jsSliceLast 50 (s.commandHistory ++ [payload]),
               historyIndex := -1 }
  | .setHistoryIndex payload => { s with historyIndex := payload }
  | .setBooting payload => { s with isBooting := payload }
  | .setChatMode payload => { s with chatMode := payload }
  | .setStreaming payload => { s with isStreaming := payload }
  | .updateStreamingHistory index output =>
      if h : 0 ≤ index ∧ index.toNat < s.history.length then
        { s with history :=
            s.history.set index.toNat (entryWithOutput (s.history.get ⟨index.toNat, h.2⟩) [output]) }
      else { s with history := s.history ++ [⟨"", [output], none⟩] }
  | .clearHistory => { s with history := [] }

/-- Embedding of `initialState` of the reducer. -/

def initialTerminalState : TerminalState :=
  { history := [], commandHistory := [], historyIndex := -1,
    isBooting := true, chatMode := none, isStreaming := false }

/-- Embedding of `addToCommandHistory`: dispatch `ADD_COMMAND_HISTORY` only for inputs
whose trim is nonempty. -/

def addToCommandHistory (s : TerminalState) (command : String) : TerminalState :=
  if jsTrim command ≠ "" then terminalReducer s (.addCommandHistory command)
  else s

/-- The command-history-relevant prefix of `executeCommand`: blank inputs
return before reaching `addToCommandHistory`; every other input is trimmed
and recorded. No later step of `executeCommand` dispatches
`ADD_COMMAND_HISTORY` (shown action-by-action in the theorem below). -/

def execAddCommandHistory (s : TerminalState) (input : String) : TerminalState :=
  if jsTrim input = "" then s
  else addToCommandHistory s (jsTrim input)

/-! ## Theorems -/


theorem resolvePath_dotdot (m : FSManager) :
    resolvePath m ".." = some m.currentPath.dropLast := rfl

theorem resolvePath_dash (m : FSManager) :
    resolvePath m "-" = m.previousPath := rfl

theorem applyDotDot_currentPath (m : FSManager) :
    (applyDotDot m).currentPath = m.currentPath.dropLast := rfl

theorem applyDotDot_iterate_currentPath (n : Nat) (m : FSManager) :
    ((applyDotDot)^[n] m).currentPath = (List.dropLast)^[n] m.currentPath := by
  induction n generalizing m with
  | zero => rfl
  | succ n ih =>
    rw [Function.iterate_succ_apply, Function.iterate_succ_apply, ih,
      applyDotDot_currentPath]

theorem dropLast_iterate_eq_nil {α : Type} :
    ∀ (n : Nat) (l : List α), l.length ≤ n → (List.dropLast)^[n] l = [] := by
  intro n
  induction n with
  | zero =>
    intro l hl
    have : l = [] := List.length_eq_zero.mp (Nat.le_zero.mp hl)
    simp [this]
  | succ n ih =>
    intro l hl
    rw [Function.iterate_succ_apply]
    exact ih l.dropLast (by rw [List.length_dropLast]; omega)

/-- Claim **C1.** For every cursor position `d`, applying `resolve("..")` `depth(d)`
times reaches the root (empty segment list), one further application stays at
the root (popping past root is a no-op), `resolve("..")` is exactly "drop the
last segment", and the resolver returns a result (never an error) for every
non-blank input other than `-`, hence for every `..`-containing input. -/
theorem resolve_dotdot_clamps_to_root (m : FSManager) :
    ((applyDotDot)^[m.currentPath.length] m).currentPath = [] ∧
    ((applyDotDot)^[m.currentPath.length + 1] m).currentPath = [] ∧
    resolvePath m ".." = some m.currentPath.dropLast ∧
    (∀ p : String, jsTrim p ≠ "" → p ≠ "-" → (resolvePath m p).isSome = true) := by
  refine ⟨?_, ?_, resolvePath_dotdot m, ?_⟩
  · rw [applyDotDot_iterate_currentPath]
    exact dropLast_iterate_eq_nil _ _ (Nat.le_refl _)
  · rw [applyDotDot_iterate_currentPath]
    exact dropLast_iterate_eq_nil _ _ (Nat.le_succ _)
  · intro p h1 h2
    unfold resolvePath
    rw [if_neg h1]
    by_cases htilde : p = "~"
    · rw [if_pos htilde]; rfl
    · rw [if_neg htilde, if_neg h2]
      cases hsw : jsStartsWith p "/" <;> simp [hsw]

/-- Witness for C1 at the concrete manager `exManager` and input `".."`. -/
theorem resolve_dotdot_clamps_to_root_witness :
    (resolvePath exManager "..").isSome = true :=
  (resolve_dotdot_clamps_to_root exManager).2.2.2 ".." (by decide) (by decide)

theorem navigate_success_shape (m : FSManager) (p : String)
    (h : (navigate m p).1 = true) :
    ∃ rp node, resolvePath m p = some rp ∧ getNodeAtPath m.root rp = some node ∧
      node.ty = .directory ∧
      (navigate m p).2 = { m with previousPath := some m.currentPath, currentPath := rp } := by
  cases hres : resolvePath m p with
  | none => simp [navigate, hres] at h
  | some rp =>
    cases hnode : getNodeAtPath m.root rp with
    | none => simp [navigate, hres, hnode] at h
    | some node =>
      by_cases hty : node.ty = .directory
      · refine ⟨rp, node, rfl, hnode, hty, ?_⟩
        simp [navigate, hres, hnode, if_pos hty]
      · simp [navigate, hres, hnode, if_neg hty] at h

theorem navigate_dash_of_prev_dir (root : FSNode) (cur prev : List String)
    (node : FSNode) (h : getNodeAtPath root prev = some node)
    (hd : node.ty = .directory) :
    navigate ⟨root, cur, some prev⟩ "-" = (true, ⟨root, prev, some cur⟩) := by
  simp [navigate, resolvePath_dash, h, hd]

/-- Claim **C2.** After a successful `navigate(x)` issued at path `y`, the
single-slot previous path is exactly `y`; `navigate("-")` succeeds and returns
the cursor to `y` (recording the navigated-to path in the slot), and a further
`navigate("-")` succeeds and returns the cursor to the target of `x`. -/
theorem navigate_dash_pingpong (m : FSManager) (x : String)
    (hdir : isDirectoryAt m.root m.currentPath = true)
    (hnav : (navigate m x).1 = true) :
    ((navigate m x).2).previousPath = some m.currentPath ∧
    (navigate (navigate m x).2 "-").1 = true ∧
    ((navigate (navigate m x).2 "-").2).currentPath = m.currentPath ∧
    ((navigate (navigate m x).2 "-").2).previousPath = some ((navigate m x).2).currentPath ∧
    (navigate (navigate (navigate m x).2 "-").2 "-").1 = true ∧
    ((navigate (navigate (navigate m x).2 "-").2 "-").2).currentPath
      = ((navigate m x).2).currentPath := by
  obtain ⟨rp, node, hres, hnode, hty, hm1⟩ := navigate_success_shape m x hnav
  obtain ⟨ny, hny, hnyd⟩ :
      ∃ ny, getNodeAtPath m.root m.currentPath = some ny ∧ ny.ty = .directory := by
    unfold isDirectoryAt at hdir
    cases hget : getNodeAtPath m.root m.currentPath with
    | none => rw [hget] at hdir; simp at hdir
    | some ny =>
      rw [hget] at hdir
      simp only [decide_eq_true_eq] at hdir
      exact ⟨ny, rfl, hdir⟩
  have hm1' : (navigate m x).2 = (⟨m.root, rp, some m.currentPath⟩ : FSManager) := hm1
  have h2 : navigate (navigate m x).2 "-"
      = (true, (⟨m.root, m.currentPath, some rp⟩ : FSManager)) := by
    rw [hm1']
    exact navigate_dash_of_prev_dir m.root rp m.currentPath ny hny hnyd
  have h3 : navigate (⟨m.root, m.currentPath, some rp⟩ : FSManager) "-"
      = (true, (⟨m.root, rp, some m.currentPath⟩ : FSManager)) :=
    navigate_dash_of_prev_dir m.root m.currentPath rp node hnode hty
  refine ⟨by rw [hm1'], by rw [h2], by rw [h2], by rw [h2, hm1'], ?_, ?_⟩
  · rw [h2]; simp only; rw [h3]
  · rw [h2]; simp only; rw [h3, hm1']

/-- Witness for C2: from `/home/saptarshi`, `cd /docs` then `cd -` twice. -/
theorem navigate_dash_pingpong_witness :
    ((navigate exManager "/docs").2).previousPath = some exManager.currentPath ∧
    (navigate (navigate exManager "/docs").2 "-").1 = true ∧
    ((navigate (navigate exManager "/docs").2 "-").2).currentPath = exManager.currentPath ∧
    ((navigate (navigate exManager "/docs").2 "-").2).previousPath
      = some ((navigate exManager "/docs").2).currentPath ∧
    (navigate (navigate (navigate exManager "/docs").2 "-").2 "-").1 = true ∧
    ((navigate (navigate (navigate exManager "/docs").2 "-").2 "-").2).currentPath
      = ((navigate exManager "/docs").2).currentPath :=
  navigate_dash_pingpong exManager "/docs" (by decide) (by decide)

theorem navigate_fail_no_mutation (m : FSManager) (p : String)
    (hfail : (navigate m p).1 = false) : (navigate m p).2 = m := by
  cases hres : resolvePath m p with
  | none => simp [navigate, hres]
  | some rp =>
    cases hnode : getNodeAtPath m.root rp with
    | none => simp [navigate, hres, hnode]
    | some node =>
      by_cases hty : node.ty = .directory
      · exfalso; simp [navigate, hres, hnode, if_pos hty] at hfail
      · simp [navigate, hres, hnode, if_neg hty]

/-- Claim **C3.** When `navigate(p)` fails, neither `currentPath` nor
`previousPath` changes; and for every path expression other than the
special-cased `-`, the `cd` handler emits exactly one error line naming `p`,
distinguishing a missing target (`No such file or directory`) from an
existing non-directory target (`Not a directory`). -/
theorem cd_failure_reports_path_error (m : FSManager) (p ec : String)
    (hfail : (navigate m p).1 = false) :
    (navigate m p).2 = m ∧
    (p ≠ "-" →
      cdCommand ec m [p] =
        (m, [if (getNode m p).isSome
             then errSpan ec ("bash: cd: " ++ p ++ ": Not a directory")
             else errSpan ec ("bash: cd: " ++ p ++ ": No such file or directory")])) := by
  have hnomut := navigate_fail_no_mutation m p hfail
  refine ⟨hnomut, ?_⟩
  intro hp
  simp only [cdCommand]
  rw [if_neg hp, if_neg (by rw [hfail]; exact Bool.false_ne_true)]
  cases hnode : getNode m p with
  | none => simp [hnode, hnomut]
  | some node => simp [hnode, hnomut]

/-- Witness for C3 at the missing path `missing` on the example tree. -/
theorem cd_failure_reports_path_error_witness :
    cdCommand "E" exManager ["missing"] =
      (exManager, [if (getNode exManager "missing").isSome
                   then errSpan "E" ("bash: cd: " ++ "missing" ++ ": Not a directory")
                   else errSpan "E" ("bash: cd: " ++ "missing" ++ ": No such file or directory")]) :=
  (cd_failure_reports_path_error exManager "missing" "E" (by decide)).2 (by decide)

/-- Claim **C4.** The worked parser examples: quoted arguments, boolean and valued
long flags, short-flag cluster expansion, and negative-number literals
classified as positional arguments rather than flag clusters. -/
theorem parse_examples :
    parse "cat \"a b.txt\" -l --color=auto"
      = ⟨"cat", ["a b.txt"], [("l", .b true), ("color", .s "auto")],
         "cat \"a b.txt\" -l --color=auto"⟩ ∧
    (parse "ls -la").flags = [("l", .b true), ("a", .b true)] ∧
    (parse "cat -1").args = ["-1"] ∧ (parse "cat -1").flags = [] ∧
    (parse "cat -2.5").args = ["-2.5"] ∧ (parse "cat -2.5").flags = [] ∧
    isNegativeNumber "-1" = true ∧ isNegativeNumber "-2.5" = true ∧
    isNegativeNumber "-la" = false := by decide

theorem readFile_isSome_shape (m : FSManager) (p : String)
    (h : (readFile m p).isSome = true) :
    ∃ node, getNode m p = some node ∧ ¬ node.ty = .directory ∧
      readFile m p = some (node.content.getD "") := by
  cases hn : getNode m p with
  | none => simp [readFile, hn] at h
  | some node =>
    by_cases hty : node.ty = .directory
    · simp [readFile, hn, hty] at h
    · exact ⟨node, rfl, hty, by simp [readFile, hn, hty]⟩

theorem jsSplitChar_ne_nil (c : Char) (s : String) : jsSplitChar c s ≠ [] := by
  unfold jsSplitChar
  simp

theorem catStep_foldl_success (ec : String) (m : FSManager) :
    ∀ (xs : List String) (outs : List String), outs ≠ [] →
      (∀ p ∈ xs, (readFile m p).isSome = true) →
      (xs.foldl (catStep ec m) (outs, false)).1
        = outs ++ (xs.map (fun p => "" :: catContents m p)).flatten := by
  intro xs
  induction xs with
  | nil => intro outs _ _; simp
  | cons p rest ih =>
    intro outs houts hall
    obtain ⟨node, hn, hty, hrf⟩ := readFile_isSome_shape m p (hall p (by simp))
    have hstep : catStep ec m (outs, false) p = (outs ++ [""] ++ catContents m p, false) := by
      simp [catStep, hn, hty, hrf, catContents, List.length_pos.mpr houts]
    rw [List.foldl_cons, hstep,
      ih (outs ++ [""] ++ catContents m p) (by simp) (fun q hq => hall q (by simp [hq]))]
    simp

theorem intercalate_cons_eq_join_map {α : Type} (sep : List α) :
    ∀ (l : List (List α)) (x : List α),
      List.intercalate sep (x :: l) = x ++ (l.map (fun y => sep ++ y)).flatten := by
  intro l
  induction l with
  | nil => intro x; simp [List.intercalate]
  | cons y ys ih =>
    intro x
    rw [List.intercalate, List.intersperse_cons_cons, List.flatten_cons, List.flatten_cons,
      show (List.intersperse sep (y :: ys)).flatten = List.intercalate sep (y :: ys) from rfl,
      ih y]
    simp

theorem catStep_foldl_render (ec : String) (m : FSManager) :
    ∀ (xs : List String) (outs : List String) (e : Bool),
      (xs.foldl (catStep ec m) (outs, e)).1
        = outs ++ catRender ec m xs (decide (0 < outs.length)) e := by
  intro xs
  induction xs with
  | nil => intro outs e; simp [catRender]
  | cons p rest ih =>
    intro outs e
    rw [List.foldl_cons]
    cases hn : getNode m p with
    | none =>
      have hstep : catStep ec m (outs, e) p
          = (outs ++ [errSpan ec ("cat: " ++ p ++ ": No such file or directory")], true) := by
        simp [catStep, hn]
      have hdec : decide (0 < (outs
          ++ [errSpan ec ("cat: " ++ p ++ ": No such file or directory")]).length) = true :=
        decide_eq_true (by simp)
      rw [hstep, ih, hdec]
      simp [catRender, hn]
    | some node =>
      by_cases hd : node.ty = .directory
      · have hstep : catStep ec m (outs, e) p
            = (outs ++ [errSpan ec ("cat: " ++ p ++ ": Is a directory")], true) := by
          simp [catStep, hn, hd]
        have hdec : decide (0 < (outs
            ++ [errSpan ec ("cat: " ++ p ++ ": Is a directory")]).length) = true :=
          decide_eq_true (by simp)
        rw [hstep, ih, hdec]
        simp [catRender, hn, hd]
      · have hrf : readFile m p = some (node.content.getD "") := by
          simp [readFile, hn, hd]
        have hstep : catStep ec m (outs, e) p
            = (outs ++ (if 0 < outs.length ∧ e = false then [""] else [])
                 ++ jsSplitChar '\n' (node.content.getD ""), e) := by
          simp [catStep, hn, hd, hrf]
        have hpos : 0 < (outs ++ (if 0 < outs.length ∧ e = false then [""] else [])
              ++ jsSplitChar '\n' (node.content.getD "")).length := by
          have hne := jsSplitChar_ne_nil '\n' (node.content.getD "")
          simp only [List.length_append]
          have := List.length_pos.mpr hne
          omega
        rw [hstep, ih, decide_eq_true hpos]
        simp only [catRender, hn, hd, hrf, if_neg hd]
        by_cases ho : 0 < outs.length <;> by_cases he : e = false <;>
          simp [ho, he, List.append_assoc]

/-- Claim **C5 (amended).** When every argument is a readable (non-directory,
existing) path, `cat` emits each file's lines in argument order with one blank
line between consecutive files; but the separator is suppressed for all files
after the first error, because `hasError` never resets. In general the output
is exactly the per-argument rendering `catRender`: every missing path yields
its `No such file or directory` line and every directory path its
`Is a directory` line, the remaining arguments are still processed after
either error, and a readable file's content is preceded by the blank
separator exactly when output is nonempty and no error has occurred yet. -/
theorem cat_blank_separator_amended (m : FSManager) (ec : String) :
    (∀ (xs : List String), xs ≠ [] → (∀ p ∈ xs, (readFile m p).isSome = true) →
       catCommand ec m xs = List.intercalate [""] (xs.map (catContents m))) ∧
    catCommand "E" exManager ["zzz", "a.txt", "b.txt"]
      = [errSpan "E" "cat: zzz: No such file or directory", "X", "Y"] ∧
    (∀ (xs : List String), xs ≠ [] →
       catCommand ec m xs = catRender ec m xs false false) ∧
    (∀ (p : String) (rest : List String) (nonempty hasError : Bool),
       getNode m p = none →
       catRender ec m (p :: rest) nonempty hasError
         = errSpan ec ("cat: " ++ p ++ ": No such file or directory")
             :: catRender ec m rest true true) ∧
    (∀ (p : String) (rest : List String) (nonempty hasError : Bool) (node : FSNode),
       getNode m p = some node → node.ty = .directory →
       catRender ec m (p :: rest) nonempty hasError
         = errSpan ec ("cat: " ++ p ++ ": Is a directory")
             :: catRender ec m rest true true) ∧
    (∀ (p : String) (rest : List String) (nonempty hasError : Bool),
       (readFile m p).isSome = true →
       catRender ec m (p :: rest) nonempty hasError
         = (if nonempty = true ∧ hasError = false then [""] else [])
             ++ catContents m p ++ catRender ec m rest true hasError) ∧
    catCommand "E" exManager ["/docs", "a.txt", "b.txt"]
      = [errSpan "E" "cat: /docs: Is a directory", "X", "Y"] := by
  refine ⟨?_, by decide, ?_, ?_, ?_, ?_, by decide⟩
  · intro xs hne hall
    match xs with
    | p :: rest =>
      obtain ⟨node, hn, hty, hrf⟩ := readFile_isSome_shape m p (hall p (by simp))
      have h1 : catStep ec m ([], false) p = (catContents m p, false) := by
        simp [catStep, hn, hty, hrf, catContents]
      unfold catCommand
      rw [if_neg (by simp), List.foldl_cons, h1,
        catStep_foldl_success ec m rest (catContents m p)
          (by simp [catContents]; exact jsSplitChar_ne_nil _ _)
          (fun q hq => hall q (by simp [hq])),
        List.map_cons, intercalate_cons_eq_join_map]
      simp [Function.comp_def]
  · intro xs hne
    unfold catCommand
    rw [if_neg (by simpa using hne), catStep_foldl_render]
    simp
  · intro p rest nonempty hasError hn
    simp [catRender, hn]
  · intro p rest nonempty hasError node hn hd
    simp [catRender, hn, hd]
  · intro p rest nonempty hasError hr
    obtain ⟨node, hn, hd, hrf⟩ := readFile_isSome_shape m p hr
    simp [catRender, hn, hd, hrf, catContents]

/-- Claim **C5 (counterexample).** After the error line for the missing `zzz`, the
contents of `a.txt` and `b.txt` — two consecutively successful files — are
emitted with *no* blank separator, contradicting the claimed unconditional
blank-line separation. -/
theorem cat_blank_separator_counterexample :
    catCommand "E" exManager ["zzz", "a.txt", "b.txt"]
      = [errSpan "E" "cat: zzz: No such file or directory", "X", "Y"] ∧
    ¬ ("" ∈ catCommand "E" exManager ["zzz", "a.txt", "b.txt"]) ∧
    catCommand "E" exManager ["zzz", "a.txt", "b.txt"]
      ≠ [errSpan "E" "cat: zzz: No such file or directory", "X", "", "Y"] := by
  decide

/-- Witness for C5 (amended): the claim's own example
`cat a.txt b.txt` with `a.txt="X"`, `b.txt="Y"` yields `["X", "", "Y"]`. -/
theorem cat_blank_separator_amended_witness :
    catCommand "E" exManager ["a.txt", "b.txt"] = ["X", "", "Y"] := by
  have h := (cat_blank_separator_amended exManager "E").1 ["a.txt", "b.txt"]
    (by decide) (by decide)
  rw [h]
  decide

theorem jsSubstring_length (s : String) (e : Nat) :
    (jsSubstring s e).length = min e s.length := by
  show (s.data.take e).length = min e s.data.length
  exact List.length_take e s.data

theorem truncationMarker_length : truncationMarker.length = 40 := by decide

/-- Claim **C6 (amended).** `getContext()` never exceeds the configured maximum
provided the maximum is at least the 40-character truncation suffix; the
oversized path first retries with only priority ≥ 1 entries and, if that
rendering is still oversized, the result ends with the truncation marker.
(For maxima below 40 the hard-truncated result is the bare marker and can
exceed the maximum.) -/
theorem getContext_size_bound (cfg : KnowledgeConfig) (kb : List KnowledgeEntry)
    (h : 40 ≤ cfg.maxContextSize) :
    (getContext cfg kb).length ≤ cfg.maxContextSize ∧
    (cfg.maxContextSize < (formatForPrompt (contextEntries cfg kb)).length →
     cfg.maxContextSize < (formatForPrompt (highPriorityEntries cfg kb)).length →
     ∃ pre, getContext cfg kb = pre ++ truncationMarker) := by
  unfold getContext
  constructor
  · split
    · next h1 =>
      split
      · next h2 =>
        rw [String.length_append, jsSubstring_length, truncationMarker_length]
        have := Nat.min_le_left (cfg.maxContextSize - 100)
          (formatForPrompt (highPriorityEntries cfg kb)).length
        omega
      · next h2 => omega
    · next h1 => omega
  · intro h1 h2
    rw [if_pos h1, if_pos h2]
    exact ⟨_, rfl⟩

/-- Claim **C6 (counterexample).** With a configured maximum of 10 and a single
16-character entry, the hard-truncation path returns the bare 40-character
truncation marker, which exceeds the configured maximum — refuting the claim
that the returned string never exceeds the configured maximum for *every*
configured maximum. -/
theorem getContext_size_counterexample :
    (getContext cexKnowledgeConfig cexKnowledgeBase).length = 40 ∧
    ¬ ((getContext cexKnowledgeConfig cexKnowledgeBase).length
        ≤ cexKnowledgeConfig.maxContextSize) := by decide

/-- Witness for C6 (amended) at the default maximum 8000. -/
theorem getContext_size_bound_witness :
    (getContext ⟨8000, 1⟩ cexKnowledgeBase).length ≤ (8000 : Nat) :=
  (getContext_size_bound ⟨8000, 1⟩ cexKnowledgeBase (by norm_num)).1

/-- Claim **C7.** For both managers, a `sendMessage` issued while a previous send is
still streaming produces exactly the busy-classified `onError` and leaves the
state untouched — so the in-flight send's completion behaves exactly as it
would have without the rejected call. -/
theorem sendMessage_concurrent_rejected (g : GeminiState) (l : LocalLLMState)
    (mg ml : String)
    (hgInit : g.modelInitialized = true) (hgS : g.isStreaming = true)
    (hlConf : localIsConfigured l = true) (hlS : l.isStreaming = true) :
    geminiSendStart g mg = (.err busyMessage, g) ∧
    localSendStart l ml = (.err busyMessage, l) ∧
    (∀ resp, geminiSendFinish (geminiSendStart g mg).2 resp = geminiSendFinish g resp) ∧
    (∀ resp, localSendFinish (localSendStart l ml).2 resp = localSendFinish l resp) := by
  have h1 : geminiSendStart g mg = (.err busyMessage, g) := by
    simp [geminiSendStart, hgInit, hgS]
  have h2 : localSendStart l ml = (.err busyMessage, l) := by
    simp [localSendStart, hlConf, hlS]
  exact ⟨h1, h2, fun resp => by rw [h1], fun resp => by rw [h2]⟩

/-- Witness for C7 on concrete mid-stream manager states. -/
theorem sendMessage_concurrent_rejected_witness :
    geminiSendStart ⟨"key", true, "", [], true⟩ "hi"
      = (.err busyMessage, ⟨"key", true, "", [], true⟩) ∧
    localSendStart ⟨"http://localhost:11434", "", [], true⟩ "hi"
      = (.err busyMessage, ⟨"http://localhost:11434", "", [], true⟩) := by
  have h := sendMessage_concurrent_rejected ⟨"key", true, "", [], true⟩
    ⟨"http://localhost:11434", "", [], true⟩ "hi" "hi" rfl rfl (by decide) rfl
  exact ⟨h.1, h.2.1⟩

/-- Claim **C8 (amended).** A chat-entry command with a missing or unconfigured
backend never enters chat mode (the mode stays `none`); chat mode is entered
exactly when the manager exists and reports itself configured. The
unconfigured branches name the missing setting, but the hosted manager is
`null` whenever its API key is empty (construction fails), and that branch
prints only a generic "not initialized / check your configuration" message
that does not name `VITE_GEMINI_API_KEY`. -/
theorem chat_entry_amended (kl : Bool) (sys : String) :
    chatapiCommand none kl sys = (none, geminiNotInitializedLines, none) ∧
    (∀ g : GeminiState, geminiIsConfigured g = false →
       chatapiCommand (some g) kl sys = (none, geminiNotConfiguredLines, some g)) ∧
    (geminiNotConfiguredLines.any (fun line => jsIncludes line "VITE_GEMINI_API_KEY")) = true ∧
    (∀ g : GeminiState, geminiIsConfigured g = true →
       (chatapiCommand (some g) kl sys).1 = some ChatMode.gemini) ∧
    chatCommand none kl sys = (none, localNotInitializedLines, none) ∧
    (∀ lmgr : LocalLLMState, localIsConfigured lmgr = false →
       chatCommand (some lmgr) kl sys = (none, localNotConfiguredLines, some lmgr)) ∧
    (localNotConfiguredLines.any (fun line => jsIncludes line "VITE_LOCAL_LLM_ENDPOINT")) = true ∧
    (∀ lmgr : LocalLLMState, localIsConfigured lmgr = true →
       (chatCommand (some lmgr) kl sys).1 = some ChatMode.local) := by
  refine ⟨rfl, ?_, by decide, ?_, rfl, ?_, by decide, ?_⟩
  · intro g hg; simp [chatCommand, chatapiCommand, hg]
  · intro g hg; simp [chatapiCommand, hg]
  · intro lmgr hl; simp [chatCommand, hl]
  · intro lmgr hl; simp [chatCommand, hl]

/-- Claim **C8 (counterexample).** With an empty API key the hosted manager fails to
construct (`none`); the `chatapi` command then stays in shell mode but its
error output nowhere names the missing `VITE_GEMINI_API_KEY` setting,
refuting the claim that the configuration-error message names the missing
setting in the uninitialized case. -/
theorem chat_entry_counterexample :
    mkGeminiManager "" = none ∧
    (chatapiCommand (mkGeminiManager "") true "sys").1 = none ∧
    ((chatapiCommand (mkGeminiManager "") true "sys").2.1.all
       (fun line => !(jsIncludes line "VITE_GEMINI_API_KEY"))) = true := by
  decide

/-- Witness for C8 (amended): a present-but-unconfigured local manager. -/
theorem chat_entry_amended_witness :
    chatCommand (some ⟨"", "", [], false⟩) true "sys"
      = (none, localNotConfiguredLines, some ⟨"", "", [], false⟩) :=
  (chat_entry_amended true "sys").2.2.2.2.2.1 ⟨"", "", [], false⟩ (by decide)

theorem jsSliceLast_length_le {α : Type} (n : Nat) (l : List α) :
    (jsSliceLast n l).length ≤ n := by
  simp only [jsSliceLast, List.length_drop]
  omega

theorem jsSliceLast_idem {α : Type} (n : Nat) (l : List α) :
    jsSliceLast n (jsSliceLast n l) = jsSliceLast n l := by
  unfold jsSliceLast
  rw [List.length_drop, show l.length - (l.length - n) - n = 0 by omega, List.drop_zero]

/-- Claim **C9.** Both request payloads are built from at most the 10 most recent
stored messages (the payload builders cannot see older history) plus the new
user message, while a send appends to the stored history without truncating
it; only `clearHistory()` (called on chat-mode exit) empties it. -/
theorem request_history_capped (g : GeminiState) (l : LocalLLMState) (msg : String)
    (hgInit : g.modelInitialized = true) (hgS : g.isStreaming = false)
    (hlConf : localIsConfigured l = true) (hlS : l.isStreaming = false) :
    buildPrompt g.chatHistory msg = buildPrompt (jsSliceLast 10 g.chatHistory) msg ∧
    (jsSliceLast 10 g.chatHistory).length ≤ 10 ∧
    g.chatHistory
      = g.chatHistory.take (g.chatHistory.length - 10) ++ jsSliceLast 10 g.chatHistory ∧
    buildMessages l msg
      = (if l.systemPrompt ≠ "" then [⟨.system, l.systemPrompt⟩] else [])
        ++ jsSliceLast 10 l.chatHistory ++ [⟨.user, msg⟩] ∧
    (jsSliceLast 10 l.chatHistory).length ≤ 10 ∧
    geminiSendStart g msg
      = (.started (buildPrompt g.chatHistory msg),
         { g with isStreaming := true, chatHistory := g.chatHistory ++ [⟨.user, msg⟩] }) ∧
    (∀ resp, (geminiSendFinish (geminiSendStart g msg).2 resp).chatHistory
        = g.chatHistory ++ [⟨.user, msg⟩, ⟨.model, resp⟩]) ∧
    localSendStart l msg
      = (.started (buildMessages l msg),
         { l with isStreaming := true, chatHistory := l.chatHistory ++ [⟨.user, msg⟩] }) ∧
    (∀ resp, resp ≠ "" → (localSendFinish (localSendStart l msg).2 resp).chatHistory
        = l.chatHistory ++ [⟨.user, msg⟩, ⟨.assistant, resp⟩]) ∧
    (geminiClearHistory g).chatHistory = [] ∧
    (localClearHistory l).chatHistory = [] := by
  have hgstart : geminiSendStart g msg
      = (.started (buildPrompt g.chatHistory msg),
         { g with isStreaming := true, chatHistory := g.chatHistory ++ [⟨.user, msg⟩] }) := by
    simp [geminiSendStart, hgInit, hgS]
  have hlstart : localSendStart l msg
      = (.started (buildMessages l msg),
         { l with isStreaming := true, chatHistory := l.chatHistory ++ [⟨.user, msg⟩] }) := by
    simp [localSendStart, hlConf, hlS]
  refine ⟨?_, jsSliceLast_length_le 10 g.chatHistory,
      (List.take_append_drop _ _).symm, rfl, jsSliceLast_length_le 10 l.chatHistory,
      hgstart, ?_, hlstart, ?_, rfl, rfl⟩
  · unfold buildPrompt
    rw [jsSliceLast_idem]
  · intro resp
    rw [hgstart]
    simp [geminiSendFinish]
  · intro resp hresp
    rw [hlstart]
    simp [localSendFinish, hresp]

/-- Witness for C9 on a 12-message history: the prompt only sees the last
10 messages. -/
theorem request_history_capped_witness :
    buildPrompt geminiWitnessState.chatHistory "q"
      = buildPrompt (jsSliceLast 10 geminiWitnessState.chatHistory) "q" ∧
    (jsSliceLast 10 geminiWitnessState.chatHistory).length ≤ 10 := by
  have h := request_history_capped geminiWitnessState
    ⟨"http://localhost:11434", "", [], false⟩ "q" rfl rfl (by decide) rfl
  exact ⟨h.1, h.2.1⟩

theorem jsSliceLast_of_length_le {α : Type} (n : Nat) (l : List α)
    (h : l.length ≤ n) : jsSliceLast n l = l := by
  unfold jsSliceLast
  rw [Nat.sub_eq_zero_of_le h, List.drop_zero]

theorem jsSliceLast_append_absorb {α : Type} (n : Nat) (l r : List α) :
    jsSliceLast n (jsSliceLast n l ++ r) = jsSliceLast n (l ++ r) := by
  rcases Nat.le_total l.length n with h | h
  · rw [jsSliceLast_of_length_le n l h]
  · unfold jsSliceLast
    have hk : l.length - n ≤ l.length := Nat.sub_le _ _
    rw [← List.drop_append_of_le_length hk, List.drop_drop]
    congr 1
    simp only [List.length_append, List.length_drop]
    omega

theorem dropWhile_head_false {α : Type} (p : α → Bool) (l : List α) (x : α)
    (h : (l.dropWhile p).head? = some x) : p x = false := by
  induction l with
  | nil => simp at h
  | cons a t ih =>
    rw [List.dropWhile_cons] at h
    cases hp : p a with
    | true => rw [if_pos hp] at h; exact ih h
    | false =>
      rw [if_neg (by simp [hp])] at h
      simp only [List.head?_cons, Option.some.injEq] at h
      rw [← h]
      exact hp

theorem dropWhile_eq_self_of_head {α : Type} (p : α → Bool) (l : List α)
    (h : ∀ x, l.head? = some x → p x = false) : l.dropWhile p = l := by
  cases l with
  | nil => rfl
  | cons a t => rw [List.dropWhile_cons, if_neg (by simp [h a rfl])]

theorem dropWhile_dropWhile {α : Type} (p : α → Bool) (l : List α) :
    (l.dropWhile p).dropWhile p = l.dropWhile p :=
  dropWhile_eq_self_of_head p _ (fun x hx => dropWhile_head_false p l x hx)

theorem trimmed_head_not_ws (l : List Char) (x : Char)
    (h : (((l.dropWhile Char.isWhitespace).reverse.dropWhile
            Char.isWhitespace).reverse).head? = some x) :
    Char.isWhitespace x = false := by
  rw [List.head?_reverse] at h
  obtain ⟨pre, hpre⟩ :=
    List.dropWhile_suffix (l := (l.dropWhile Char.isWhitespace).reverse)
      (p := Char.isWhitespace)
  have hBne : (l.dropWhile Char.isWhitespace).reverse.dropWhile Char.isWhitespace ≠ [] := by
    intro hBnil
    rw [hBnil] at h
    simp at h
  have h2 : ((l.dropWhile Char.isWhitespace).reverse).getLast? = some x := by
    rw [← hpre, List.getLast?_append_of_ne_nil pre hBne]
    exact h
  rw [List.getLast?_reverse] at h2
  exact dropWhile_head_false _ l x h2

theorem jsTrim_idem (s : String) : jsTrim (jsTrim s) = jsTrim s := by
  show (⟨(((((s.data.dropWhile Char.isWhitespace).reverse.dropWhile
        Char.isWhitespace).reverse).dropWhile Char.isWhitespace).reverse.dropWhile
        Char.isWhitespace).reverse⟩ : String)
      = ⟨((s.data.dropWhile Char.isWhitespace).reverse.dropWhile
          Char.isWhitespace).reverse⟩
  congr 1
  rw [dropWhile_eq_self_of_head Char.isWhitespace _
      (fun x hx => trimmed_head_not_ws s.data x hx),
    List.reverse_reverse, dropWhile_dropWhile]

/-- Claim **C10.** Over any sequence of executed inputs, the raw command-input
history is exactly the at-most-50-element suffix of the non-blank (trimmed)
inputs in order: each non-blank input is appended, entries older than the
last 50 are discarded, the list never exceeds 50 entries, and `CLEAR_HISTORY`
(the `clear` command) — like every action other than `ADD_COMMAND_HISTORY` —
leaves it untouched. -/
theorem commandHistory_capped (s0 : TerminalState) (inputs : List String)
    (h50 : s0.commandHistory.length ≤ 50) :
    (inputs.foldl execAddCommandHistory s0).commandHistory
      = jsSliceLast 50 (s0.commandHistory
          ++ (inputs.map jsTrim).filter (fun t => t ≠ "")) ∧
    (inputs.foldl execAddCommandHistory s0).commandHistory.length ≤ 50 ∧
    (∀ s : TerminalState, (terminalReducer s .clearHistory).commandHistory
        = s.commandHistory) ∧
    (∀ (s : TerminalState) (a : TerminalAction), (∀ p, a ≠ .addCommandHistory p) →
        (terminalReducer s a).commandHistory = s.commandHistory) := by
  have hmain : ∀ (inputs : List String) (s0 : TerminalState),
      s0.commandHistory.length ≤ 50 →
      (inputs.foldl execAddCommandHistory s0).commandHistory
        = jsSliceLast 50 (s0.commandHistory
            ++ (inputs.map jsTrim).filter (fun t => t ≠ "")) := by
    intro inputs
    induction inputs with
    | nil =>
      intro s0 h
      simp only [List.foldl_nil, List.map_nil, List.filter_nil, List.append_nil]
      exact (jsSliceLast_of_length_le 50 _ h).symm
    | cons input rest ih =>
      intro s0 h
      rw [List.foldl_cons, List.map_cons]
      by_cases hb : jsTrim input = ""
      · have hskip : execAddCommandHistory s0 input = s0 := by
          simp [execAddCommandHistory, hb]
        rw [hskip, List.filter_cons, if_neg (by simp [hb])]
        exact ih s0 h
      · have hstep : execAddCommandHistory s0 input
            = { s0 with
                  commandHistory := jsSliceLast 50 (s0.commandHistory ++ [jsTrim input]),
                  historyIndex := -1 } := by
          unfold execAddCommandHistory addToCommandHistory terminalReducer
          rw [if_neg hb, if_pos (by rw [jsTrim_idem]; exact hb)]
        rw [hstep, List.filter_cons, if_pos (by simp [hb]),
          ih _ (jsSliceLast_length_le 50 _), jsSliceLast_append_absorb]
        simp
  refine ⟨hmain inputs s0 h50, ?_, fun s => by simp [terminalReducer], ?_⟩
  · rw [hmain inputs s0 h50]
    exact jsSliceLast_length_le 50 _
  · intro s a ha
    cases a with
    | addHistory p => simp [terminalReducer]
    | addCommandHistory p => exact absurd rfl (ha p)
    | setHistoryIndex p => simp [terminalReducer]
    | setBooting p => simp [terminalReducer]
    | setChatMode p => simp [terminalReducer]
    | setStreaming p => simp [terminalReducer]
    | updateStreamingHistory i o =>
      simp only [terminalReducer]
      split <;> rfl
    | clearHistory => simp [terminalReducer]

/-- Witness for C10: three inputs (one blank) from the initial state. -/
theorem commandHistory_capped_witness :
    (["ls", "   ", "clear"].foldl execAddCommandHistory
        initialTerminalState).commandHistory = ["ls", "clear"] := by
  have h := commandHistory_capped initialTerminalState ["ls", "   ", "clear"] (by decide)
  rw [h.1]
  decide

end SbkChat
